import Mathlib

/-!
Verification of the file-feature extractor
(`capa/features/extractors/binja/file.py`).

The Python module is shallowly embedded below. Pure generator functions
become Lean functions returning lists; the single fallible handler
(`extract_file_format`) returns its emitted observations together with an
optional error, and the orchestrator threads that error. The Binary Ninja
`BinaryView` backend is modelled as a read-only record of query results,
matching the interface the module consumes (segments, symbol queries,
sections, strings, byte reads, declared view type / architecture /
database flag).

Helper functions imported by the module from sibling files
(`capa.features.extractors.helpers`, `capa.features.extractors.binja.helpers`,
the feature constructors and `FORMAT_*` constants) are not part of the
repository slice under verification; each such definition is modelled
from the specification and marked as such in its doc comment.
-/

namespace Capa

/-- The Address model: tagged variant identifying where a feature was
observed (`capa.features.address`). -/
inductive Address where
  | AbsoluteVirtualAddress (value : Nat)
  | FileOffsetAddress (value : Nat)
  | NoAddress
  deriving DecidableEq, Repr

/-- The Feature model: tagged variant identifying what was observed
(`capa.features.file` / `capa.features.common`). -/
inductive Feature where
  | Export (name : String)
  | Import (name : String)
  | Section (name : String)
  | FunctionName (name : String)
  | StringFeature (value : String)
  | Characteristic (label : String)
  | Format (label : String)
  deriving DecidableEq, Repr

/-- What a handler actually pairs with a feature when it yields. Python is
dynamically typed: most yield sites wrap the location in an `Address`
variant, but `extract_file_function_names` yields the symbol's raw
integer address. The embedding keeps that distinction observable. -/
inductive YieldedAddr where
  | addr (a : Address)
  | rawInt (n : Nat)
  deriving DecidableEq, Repr

/-- An observation: the (feature, address) pair a handler yields. -/
abbrev Obs := Feature × YieldedAddr

/-- Shorthand for a tagged absolute virtual address, as produced by
`AbsoluteVirtualAddress(sym.address)` at the Python yield sites. -/
def av (n : Nat) : YieldedAddr := .addr (.AbsoluteVirtualAddress n)

/-- Shorthand for a tagged file offset address. -/
def fo (n : Nat) : YieldedAddr := .addr (.FileOffsetAddress n)

/-- Shorthand for the `NO_ADDRESS` sentinel. -/
def noAddr : YieldedAddr := .addr .NoAddress

/-- Binary Ninja symbol classifications used by the module
(`binaryninja.SymbolType`). -/
inductive SymbolType where
  | FunctionSymbol
  | LibraryFunctionSymbol
  | DataSymbol
  | ImportAddressSymbol
  | ImportedFunctionSymbol
  | ExternalSymbol
  deriving DecidableEq, Repr

/-- Binary Ninja symbol bindings (`binaryninja.SymbolBinding`). -/
inductive SymbolBinding where
  | GlobalBinding
  | WeakBinding
  | LocalBinding
  | NoBinding
  deriving DecidableEq, Repr

/-- A backend symbol: classification, binding, short name, namespace
string (`str(sym.namespace)`), ordinal (0 when none) and virtual
address. -/
structure Symbol where
  type : SymbolType
  binding : SymbolBinding
  short_name : String
  name_space : String
  ordinal : Nat
  address : Nat
  deriving DecidableEq, Repr

/-- A backend segment: start virtual address and byte length. -/
structure Segment where
  start : Nat
  length : Nat
  deriving DecidableEq, Repr

/-- A backend section, as consulted by the module: its start address. -/
structure BNSection where
  start : Nat
  deriving DecidableEq, Repr

/-- A backend string-table entry: decoded value and file offset. -/
structure StringRef where
  value : String
  start : Nat
  deriving DecidableEq, Repr

/-- The read-only `BinaryView` backend interface the module consumes:
segment enumeration, symbol queries by classification, the name-keyed
symbol table (`bv.symbols`), section and string enumeration, bounded
byte reads, the declared view type and architecture name, the image
start address, and the persisted-database flag (`bv.file.database`). -/
structure BinaryView where
  view_type : String
  start : Nat
  arch_name : String
  database : Option Unit
  segments : List Segment
  get_symbols_of_type : SymbolType → List Symbol
  symbols : List (String × List Symbol)
  sections : List (String × BNSection)
  strings : List StringRef
  read : Nat → Nat → List Nat

/-- Errors raised by `extract_file_format` (the module raises
`NotImplementedError` at two distinct sites; the spec's taxonomy names
them). -/
inductive ExtractErr where
  | UnsupportedArchitecture (arch : String)
  | UnsupportedContainerFormat (viewType : String)
  deriving DecidableEq, Repr

/-- Result of running a (possibly fallible) handler as a generator: the
observations yielded before it finished or raised, and the error if it
raised. -/
structure GenResult where
  obs : List Obs
  err : Option ExtractErr
  deriving DecidableEq, Repr

/-! ### String primitives

Python strings are sequences of code points; `startswith`, `endswith` and
slicing are embedded as the corresponding operations on the character
list, which coincide with Lean's `String` operations on every input. -/

/-- Python `s.startswith(p)`. -/
def strStartsWith (s p : String) : Bool := p.toList.isPrefixOf s.toList

/-- Python `s.endswith(p)`. -/
def strEndsWith (s p : String) : Bool := p.toList.isSuffixOf s.toList

/-- Python `s[n:]`. -/
def strDrop (s : String) (n : Nat) : String := String.mk (s.toList.drop n)

/-- Python `s[:-n]` (for non-empty `s`, `n ≤ len`). -/
def strDropRight (s : String) (n : Nat) : String :=
  String.mk (s.toList.take (s.toList.length - n))

/-- Python `s.split(c)` for a one-character separator. -/
def strSplitOnChar (s : String) (c : Char) : List String :=
  (s.toList.splitOn c).map String.mk

/-! ### Modelled helper functions (not in the verified slice) -/

/-- Modelled from the spec: `FORMAT_PE` from `capa.features.common`. -/
def FORMAT_PE : String := "pe"

/-- Modelled from the spec: `FORMAT_ELF` from `capa.features.common`. -/
def FORMAT_ELF : String := "elf"

/-- Modelled from the spec: `FORMAT_SC32` from `capa.features.common`. -/
def FORMAT_SC32 : String := "sc32"

/-- Modelled from the spec: `FORMAT_SC64` from `capa.features.common`. -/
def FORMAT_SC64 : String := "sc64"

/-- Modelled from the spec: `FORMAT_BINJA_DB` from `capa.features.common`. -/
def FORMAT_BINJA_DB : String := "binja-db"

/-- Reads a 4-byte little-endian value from `buf` at `i`; `none` when the
buffer is too short. -/
def le32 (buf : List Nat) (i : Nat) : Option Nat :=
  match buf.get? i, buf.get? (i+1), buf.get? (i+2), buf.get? (i+3) with
  | some b0, some b1, some b2, some b3 =>
      some (b0 + b1 * 256 + b2 * 65536 + b3 * 16777216)
  | _, _, _, _ => none

/-- Does `buf` hold the container-header signature `PE\x00\x00` at `i`? -/
def peSigAt (buf : List Nat) (i : Nat) : Bool :=
  (buf.get? i == some 0x50) && (buf.get? (i+1) == some 0x45) &&
  (buf.get? (i+2) == some 0x00) && (buf.get? (i+3) == some 0x00)

/-- Is there a valid embedded-executable candidate at offset `m`: the
2-byte legacy magic `MZ`, a readable 4-byte pointer at `m + 0x3C` whose
target `m + h` carries the container signature within bounds? -/
def carveHitAt (buf : List Nat) (m : Nat) : Bool :=
  (buf.get? m == some 0x4D) && (buf.get? (m+1) == some 0x5A) &&
  (match le32 buf (m + 0x3C) with
   | some h => decide (m + h + 4 ≤ buf.length) && peSigAt buf (m + h)
   | none => false)

/-- Modelled from the spec: `carve_pe` from
`capa.features.extractors.helpers` (§4.2). Scans `buf` from
`startOffset` for the legacy magic; for each hit at `m` reads the 4-byte
little-endian pointer at `m + 0x3C` (call it `h`) and accepts `m` when
`m + h + 4` is within the buffer and the 4 bytes at `m + h` are the
container signature. Returns the accepted offsets in scan order. -/
def carve_pe (buf : List Nat) (startOffset : Nat) : List Nat :=
  (List.range buf.length).filter fun m =>
    decide (startOffset ≤ m) && carveHitAt buf m

/-- Modelled from the spec: `read_c_string` from
`capa.features.extractors.binja.helpers` (§4.1 `readBoundedString`):
reads bytes at `addr` until a terminator byte or `maxLen` bytes,
whichever comes first, and decodes them as a string. -/
def read_c_string (bv : BinaryView) (addr : Nat) (maxLen : Nat) : String :=
  String.mk ((((bv.read addr maxLen).take maxLen).takeWhile (· ≠ 0)).map Char.ofNat)

/-- Strips any path components from a library name: the text after the
last `/` or `\` separator. -/
def stripPath (lib : String) : String :=
  String.mk ((lib.toList.reverse.takeWhile fun c => c ≠ '/' ∧ c ≠ '\\').reverse)

/-- Strips a trailing file extension from a library name: everything from
the last `.` onward, when a `.` is present. -/
def stripExtension (lib : String) : String :=
  let cs := lib.toList
  if cs.contains '.' then
    String.mk ((cs.reverse.dropWhile (· ≠ '.')).drop 1).reverse
  else lib

/-- Modelled from the spec: `generate_symbols` from
`capa.features.extractors.helpers` (§4.1 `generateSymbolNames`): strips
a trailing file extension and path from the library name (case
preserved), yields `"{library}.{symbol}"` when `include_dll` is true and
the library is non-empty, followed always by the bare symbol name. -/
def generate_symbols (dll : String) (symbol : String) (include_dll : Bool) :
    List String :=
  let lib := stripExtension (stripPath dll)
  (if include_dll ∧ lib ≠ "" then [lib ++ "." ++ symbol] else []) ++ [symbol]

/-- Modelled from the spec: `reformat_forwarded_export_name` from
`capa.features.extractors.helpers` (§4.1): the backend reports forwarders
as `"<module>.<function>"` where the module name may include a file
extension; the output is `"<module-without-extension>.<function>"`, and a
string with no separator is returned unchanged. -/
def reformat_forwarded_export_name (forwarded_name : String) : String :=
  match strSplitOnChar forwarded_name '.' with
  | [] => forwarded_name
  | [_] => forwarded_name
  | p :: q :: ps => p ++ "." ++ (q :: ps).getLastD q

/-- Modelled from the spec: `unmangle_c_name` from
`capa.features.extractors.binja.helpers` (§4.1 `unmangleName`):
best-effort demangling of leading-underscore C decoration and stdcall
`@N` suffixes; returns the input unchanged when no pattern applies. -/
def unmangle_c_name (name : String) : String :=
  let core := name.toList.dropWhile (· = '_')
  let r := core.reverse
  let ds := r.takeWhile Char.isDigit
  let stripped :=
    if ds ≠ [] ∧ (r.drop ds.length).head? = some '@' then
      (r.drop (ds.length + 1)).reverse
    else core
  if stripped.isEmpty then name else String.mk stripped

/-! ### The embedded module (`capa/features/extractors/binja/file.py`) -/

/-- `check_segment_for_pe(bv, seg)`: skip the first byte when the view is
a PE and the segment starts the view (so the view's own header is not
reported), read the segment bytes, carve, and emit
`Characteristic("embedded pe")` at `FileOffsetAddress(seg.start + offset)`
per hit. -/
def check_segment_for_pe (bv : BinaryView) (seg : Segment) : List Obs :=
  let start := if bv.view_type = "PE" ∧ seg.start = bv.start then 0 + 1 else 0
  let buf := bv.read seg.start seg.length
  (carve_pe buf start).map fun offset =>
    (Feature.Characteristic "embedded pe", fo (seg.start + offset))

/-- `extract_file_embedded_pe(bv)`: run the segment check on every
segment. -/
def extract_file_embedded_pe (bv : BinaryView) : List Obs :=
  bv.segments.flatMap (check_segment_for_pe bv)

/-- The body of the first loop of `extract_file_export_names` for one
symbol: global- or weak-binding symbols yield the forwarder pair when the
short name is `__forwarder_name(...)`, else the export name plus, when
demangling changes it, the demangled name. -/
def exportSymMain (sym : Symbol) : List Obs :=
  if sym.binding = .GlobalBinding ∨ sym.binding = .WeakBinding then
    let name := sym.short_name
    if strStartsWith name "__forwarder_name(" ∧ strEndsWith name ")" then
      [(Feature.Export (strDropRight (strDrop name 17) 1), av sym.address),
       (Feature.Characteristic "forwarded export", av sym.address)]
    else
      (Feature.Export name, av sym.address) ::
        (let unmangled_name := unmangle_c_name name
         if name ≠ unmangled_name then
           [(Feature.Export unmangled_name, av sym.address)]
         else [])
  else []

/-- The body of the second loop of `extract_file_export_names` for one
data symbol: for global binding and a short name starting with
`__forwarder_name`, read the C string at the symbol's address, reformat
it, and yield `Export` plus `Characteristic("forwarded export")`. -/
def exportSymFallback (bv : BinaryView) (sym : Symbol) : List Obs :=
  if sym.binding = .GlobalBinding ∧
      strStartsWith sym.short_name "__forwarder_name" then
    let name := read_c_string bv sym.address 1024
    let forwarded_name := reformat_forwarded_export_name name
    [(Feature.Export forwarded_name, av sym.address),
     (Feature.Characteristic "forwarded export", av sym.address)]
  else []

/-- `extract_file_export_names(bv)`: the first loop over function symbols
followed by data symbols, then the forwarder fallback loop over data
symbols. -/
def extract_file_export_names (bv : BinaryView) : List Obs :=
  ((bv.get_symbols_of_type .FunctionSymbol ++
    bv.get_symbols_of_type .DataSymbol).flatMap exportSymMain) ++
  ((bv.get_symbols_of_type .DataSymbol).flatMap (exportSymFallback bv))

/-- The body of `extract_file_import_names` for one import-address
symbol: the generated names for the short name, then, when the ordinal is
non-zero and the namespace non-empty, the generated names for the
`#ordinal` form, all at the symbol's virtual address. -/
def importSym (sym : Symbol) : List Obs :=
  let lib_name := sym.name_space
  let addr := av sym.address
  ((generate_symbols lib_name sym.short_name true).map fun n =>
      (Feature.Import n, addr)) ++
  (if sym.ordinal ≠ 0 ∧ lib_name ≠ "" then
    (generate_symbols lib_name ("#" ++ toString sym.ordinal) true).map fun n =>
      (Feature.Import n, addr)
   else [])

/-- `extract_file_import_names(bv)`: the per-symbol emission over every
import-address symbol. -/
def extract_file_import_names (bv : BinaryView) : List Obs :=
  (bv.get_symbols_of_type .ImportAddressSymbol).flatMap importSym

/-- `extract_file_section_names(bv)`: `Section(name)` at the section's
start address, for every named section. -/
def extract_file_section_names (bv : BinaryView) : List Obs :=
  bv.sections.map fun p => (Feature.Section p.1, av p.2.start)

/-- `extract_file_strings(bv)`: `String(value)` at a file-offset address,
for every recognized string. -/
def extract_file_strings (bv : BinaryView) : List Obs :=
  bv.strings.map fun s => (Feature.StringFeature s.value, fo s.start)

/-- The body of `extract_file_function_names` for one symbol: library
functions and functions yield their short name — paired with the raw
integer `sym.address`, not an `Address` variant — and additionally the
name without the leading underscore when one is present. -/
def funcNameSym (sym : Symbol) : List Obs :=
  if sym.type = .LibraryFunctionSymbol ∨ sym.type = .FunctionSymbol then
    let name := sym.short_name
    (Feature.FunctionName name, .rawInt sym.address) ::
      (if strStartsWith name "_" then
        [(Feature.FunctionName (strDrop name 1), .rawInt sym.address)]
       else [])
  else []

/-- `extract_file_function_names(bv)`: iterate the name-keyed symbol
table and apply the per-symbol emission to every symbol. -/
def extract_file_function_names (bv : BinaryView) : List Obs :=
  bv.symbols.flatMap fun p => p.2.flatMap funcNameSym

/-- `extract_file_format(bv)`: `Format("binja-db")` first when a database
backs the view, then the container classification; `Mapped` views with an
unrecognized architecture and unrecognized view types raise. -/
def extract_file_format (bv : BinaryView) : GenResult :=
  let pre : List Obs :=
    if bv.database.isSome then [(Feature.Format FORMAT_BINJA_DB, noAddr)] else []
  let view_type := bv.view_type
  if view_type = "PE" ∨ view_type = "COFF" then
    ⟨pre ++ [(Feature.Format FORMAT_PE, noAddr)], none⟩
  else if view_type = "ELF" then
    ⟨pre ++ [(Feature.Format FORMAT_ELF, noAddr)], none⟩
  else if view_type = "Mapped" then
    if bv.arch_name = "x86" then
      ⟨pre ++ [(Feature.Format FORMAT_SC32, noAddr)], none⟩
    else if bv.arch_name = "x86_64" then
      ⟨pre ++ [(Feature.Format FORMAT_SC64, noAddr)], none⟩
    else
      ⟨pre, some (.UnsupportedArchitecture bv.arch_name)⟩
  else if view_type = "Raw" then
    ⟨pre, none⟩
  else
    ⟨pre, some (.UnsupportedContainerFormat view_type)⟩

/-- Lifts an infallible handler to the fallible-generator signature. -/
def pureGen (f : BinaryView → List Obs) : BinaryView → GenResult :=
  fun bv => ⟨f bv, none⟩

/-- Runs a list of handlers on the view as `extract_features` does:
concatenate outputs and stop at the first raising handler, keeping its
already-yielded observations. -/
def runHandlers (hs : List (BinaryView → GenResult)) (bv : BinaryView) :
    GenResult :=
  match hs with
  | [] => ⟨[], none⟩
  | h :: rest =>
    let r := h bv
    match r.err with
    | some e => ⟨r.obs, some e⟩
    | none =>
      let r2 := runHandlers rest bv
      ⟨r.obs ++ r2.obs, r2.err⟩

/-- `FILE_HANDLERS`: the module-level handler tuple, in source order. -/
def FILE_HANDLERS : List (BinaryView → GenResult) :=
  [pureGen extract_file_export_names,
   pureGen extract_file_import_names,
   pureGen extract_file_strings,
   pureGen extract_file_section_names,
   pureGen extract_file_embedded_pe,
   pureGen extract_file_function_names,
   extract_file_format]

/-- `extract_features(bv)`: run every handler in `FILE_HANDLERS` order,
yielding each observation. -/
def extract_features (bv : BinaryView) : GenResult :=
  runHandlers FILE_HANDLERS bv

/-! ### Spec-side descriptions, for refinement comparison -/

/-- Defined from the spec's words (§4.3 table order, §4.4): the
orchestrator as the spec lists it, invoking
`extractEmbeddedExecutables, extractExportNames, extractImportNames,
extractSectionNames, extractStrings, extractFunctionNames, extractFormat`
and concatenating their outputs in that order. -/
def spec_table_order_extract (bv : BinaryView) : GenResult :=
  runHandlers
    [pureGen extract_file_embedded_pe,
     pureGen extract_file_export_names,
     pureGen extract_file_import_names,
     pureGen extract_file_section_names,
     pureGen extract_file_strings,
     pureGen extract_file_function_names,
     extract_file_format] bv

/-- Defined from the spec's words (§4.3 `extractFormat` row): emit
`Format("binja-db")` at no-address when a persisted database backs the
view; then classify the declared container type — PE or COFF → pe, ELF →
elf, a Mapped view → sc32 for x86 / sc64 for x86_64 and
`UnsupportedArchitecture` otherwise, Raw → nothing, any other type →
`UnsupportedContainerFormat`. -/
def specExtractFormat (bv : BinaryView) : GenResult :=
  let dbPart : List Obs :=
    if bv.database.isSome then [(Feature.Format "binja-db", noAddr)] else []
  match bv.view_type with
  | "PE" => ⟨dbPart ++ [(Feature.Format "pe", noAddr)], none⟩
  | "COFF" => ⟨dbPart ++ [(Feature.Format "pe", noAddr)], none⟩
  | "ELF" => ⟨dbPart ++ [(Feature.Format "elf", noAddr)], none⟩
  | "Mapped" =>
    match bv.arch_name with
    | "x86" => ⟨dbPart ++ [(Feature.Format "sc32", noAddr)], none⟩
    | "x86_64" => ⟨dbPart ++ [(Feature.Format "sc64", noAddr)], none⟩
    | a => ⟨dbPart, some (.UnsupportedArchitecture a)⟩
  | "Raw" => ⟨dbPart, none⟩
  | t => ⟨dbPart, some (.UnsupportedContainerFormat t)⟩

/-! ### Concrete backend views used to instantiate the theorems -/

/-- A view holding one section and one string and nothing else. -/
def orderView : BinaryView :=
  ⟨"ELF", 0, "", none, [], fun _ => [], [], [("foo", ⟨4096⟩)],
   [⟨"bar", 16⟩], fun _ _ => []⟩

/-- A plain function symbol named `main` at `0x401000`. -/
def mainSym : Symbol :=
  ⟨.FunctionSymbol, .GlobalBinding, "main", "", 0, 4198400⟩

/-- A view whose symbol table holds just `mainSym`. -/
def mainFnView : BinaryView :=
  ⟨"ELF", 0, "", none, [], fun _ => [], [("main", [mainSym])], [], [],
   fun _ _ => []⟩

/-- A global-binding data symbol whose short name is a complete
forwarder form, payload included. -/
def fwdSym : Symbol :=
  ⟨.DataSymbol, .GlobalBinding, "__forwarder_name(ELVC.Foo)", "", 0, 8192⟩

/-- The bytes of the C string the backend stores at `fwdSym`'s address. -/
def fwdBytes : List Nat := "USER32.dll.MessageBoxA".toList.map Char.toNat

/-- A view exposing `fwdSym` as its only data symbol, with `fwdBytes`
readable at the symbol's address. -/
def fwdView : BinaryView :=
  ⟨"PE", 0, "", none, [], (fun t => if t = .DataSymbol then [fwdSym] else []),
   [], [], [], fun a _ => if a = 8192 then fwdBytes else []⟩

/-- The spec's §8 import example: namespace `ADVAPI32.dll`, short name
`RegOpenKeyExA`, ordinal 0. -/
def advapiSym : Symbol :=
  ⟨.ImportAddressSymbol, .NoBinding, "RegOpenKeyExA", "ADVAPI32.dll", 0, 65536⟩

/-- A view exposing `advapiSym` as its only import-address symbol. -/
def advapiView : BinaryView :=
  ⟨"PE", 0, "", none, [],
   (fun t => if t = .ImportAddressSymbol then [advapiSym] else []),
   [], [], [], fun _ _ => []⟩

/-- A global function symbol with a decorated (stdcall) name. -/
def mangledSym : Symbol :=
  ⟨.FunctionSymbol, .GlobalBinding, "_memcpy@16", "", 0, 4096⟩

/-- A view exposing `mangledSym` as its only function symbol. -/
def mangledView : BinaryView :=
  ⟨"PE", 0, "", none, [],
   (fun t => if t = .FunctionSymbol then [mangledSym] else []),
   [], [], [], fun _ _ => []⟩

/-- A library function symbol whose short name starts with exactly one
underscore. -/
def fwriteSym : Symbol :=
  ⟨.LibraryFunctionSymbol, .GlobalBinding, "_fwrite", "", 0, 4368⟩

/-- A view whose symbol table holds just `fwriteSym`. -/
def fwriteView : BinaryView :=
  ⟨"PE", 0, "", none, [], fun _ => [], [("_fwrite", [fwriteSym])], [], [],
   fun _ _ => []⟩

/-- A Mapped view declaring the unrecognized architecture `arm`, with no
segments, symbols, sections or strings. -/
def armView : BinaryView :=
  ⟨"Mapped", 0, "arm", none, [], fun _ => [], [], [], [], fun _ _ => []⟩

/-- A function symbol whose short name is exactly `_`. -/
def underscoreSym : Symbol :=
  ⟨.FunctionSymbol, .GlobalBinding, "_", "", 0, 100⟩

/-- A view whose symbol table holds just `underscoreSym`. -/
def underscoreView : BinaryView :=
  ⟨"ELF", 0, "", none, [], fun _ => [], [("_", [underscoreSym])], [], [],
   fun _ _ => []⟩

/-! ## Theorems -/

/-- Unfolding the orchestrator: `extract_features` concatenates the
handlers' outputs in `FILE_HANDLERS` order, with `extract_file_format`
last supplying both its own observations and the final error state. -/
theorem extract_features_unfold (bv : BinaryView) :
    extract_features bv =
      ⟨extract_file_export_names bv ++ (extract_file_import_names bv ++
       (extract_file_strings bv ++ (extract_file_section_names bv ++
       (extract_file_embedded_pe bv ++ (extract_file_function_names bv ++
       (extract_file_format bv).obs))))),
       (extract_file_format bv).err⟩ := by
  cases hf : extract_file_format bv with
  | mk obs err =>
    cases err <;>
      simp [extract_features, FILE_HANDLERS, runHandlers, pureGen, hf]

/-- C1 (counterexample): on a view holding one string and one section,
the output of `extract_features` differs from the concatenation of the
handlers in the order the spec's §4.3 table lists them — the code emits
the string before the section, the table order would emit the section
first. -/
theorem extract_features_ne_spec_table_order :
    (extract_features orderView).obs ≠ (spec_table_order_extract orderView).obs := by
  decide

/-- C1 (amended): `extract_features` invokes the seven handlers in the
fixed order `extract_file_export_names, extract_file_import_names,
extract_file_strings, extract_file_section_names,
extract_file_embedded_pe, extract_file_function_names,
extract_file_format`, and for every view its output is the concatenation
of their outputs in that order. -/
theorem extract_features_concatenates_in_source_order (bv : BinaryView) :
    extract_features bv =
      ⟨extract_file_export_names bv ++ (extract_file_import_names bv ++
       (extract_file_strings bv ++ (extract_file_section_names bv ++
       (extract_file_embedded_pe bv ++ (extract_file_function_names bv ++
       (extract_file_format bv).obs))))),
       (extract_file_format bv).err⟩ ∧
    FILE_HANDLERS =
      [pureGen extract_file_export_names,
       pureGen extract_file_import_names,
       pureGen extract_file_strings,
       pureGen extract_file_section_names,
       pureGen extract_file_embedded_pe,
       pureGen extract_file_function_names,
       extract_file_format] :=
  ⟨extract_features_unfold bv, rfl⟩

/-- C2: on a view holding one ordinary function symbol,
`extract_file_function_names` pairs the feature with the raw integer
`sym.address`, not with any tagged `Address` variant — contradicting the
claimed invariant (and the handler's own declared return type). -/
theorem function_names_address_is_raw_integer :
    extract_file_function_names mainFnView =
      [(Feature.FunctionName "main", YieldedAddr.rawInt 4198400)] ∧
    ∀ a : Address, YieldedAddr.rawInt 4198400 ≠ YieldedAddr.addr a :=
  ⟨by decide, fun a h => YieldedAddr.noConfusion h⟩

/-- C3 (counterexample): a global-binding data symbol whose short name is
a complete `__forwarder_name(...)` form, payload included, yields two
`Export` observations and two `Characteristic("forwarded export")`
observations, not one of each: the fallback loop checks only that the
name starts with the marker, so it also fires on complete forms. -/
theorem forwarder_payload_double_emission :
    ((extract_file_export_names fwdView).filter
       (fun o => o.1 = Feature.Characteristic "forwarded export")).length ≠ 1 ∧
    ((extract_file_export_names fwdView).countP
       (fun o => match o.1 with | Feature.Export _ => true | _ => false)) ≠ 1 := by
  constructor <;> decide

/-- C3 (amended): the bounded-string fallback runs for every
global-binding data symbol whose short name begins with the forwarder
marker, whether or not the inner payload is present; consequently a
global-binding data symbol whose short name is a complete
`__forwarder_name(...)` form yields exactly two `Export` observations and
two `Characteristic("forwarded export")` observations — the forwarder
pair from the first loop and the fallback pair from the second. -/
theorem forwarder_fallback_ignores_payload (bv : BinaryView) (sym : Symbol)
    (h1 : sym.binding = SymbolBinding.GlobalBinding)
    (h2 : strStartsWith sym.short_name "__forwarder_name" = true)
    (h3 : strStartsWith sym.short_name "__forwarder_name(" = true)
    (h4 : strEndsWith sym.short_name ")" = true)
    (h5 : bv.get_symbols_of_type SymbolType.FunctionSymbol = [])
    (h6 : bv.get_symbols_of_type SymbolType.DataSymbol = [sym]) :
    extract_file_export_names bv =
      [(Feature.Export (strDropRight (strDrop sym.short_name 17) 1),
        av sym.address),
       (Feature.Characteristic "forwarded export", av sym.address),
       (Feature.Export (reformat_forwarded_export_name
          (read_c_string bv sym.address 1024)), av sym.address),
       (Feature.Characteristic "forwarded export", av sym.address)] := by
  simp [extract_file_export_names, h5, h6, exportSymMain, exportSymFallback,
    h1, h2, h3, h4]

/-- C3 (witness): the amended behavior at the concrete view `fwdView`. -/
theorem forwarder_fallback_ignores_payload_witness :
    extract_file_export_names fwdView =
      [(Feature.Export "ELVC.Foo", av 8192),
       (Feature.Characteristic "forwarded export", av 8192),
       (Feature.Export "USER32.MessageBoxA", av 8192),
       (Feature.Characteristic "forwarded export", av 8192)] :=
  (forwarder_fallback_ignores_payload fwdView fwdSym rfl (by decide)
    (by decide) (by decide) (by decide) (by decide)).trans (by decide)

/-- C4: `extract_file_format` coincides with the spec's description
(`Format("binja-db")` first exactly when a database backs the view, then
PE/COFF → pe, ELF → elf, Mapped → sc32/sc64 by architecture with
`UnsupportedArchitecture` otherwise, Raw → nothing without error, any
other declared type → `UnsupportedContainerFormat`), and every
observation it emits is at `NoAddress`. -/
theorem extract_file_format_matches_spec (bv : BinaryView) :
    extract_file_format bv = specExtractFormat bv ∧
    (extract_file_format bv).obs.all (fun o => o.2 == noAddr) = true := by
  constructor
  · by_cases hPE : bv.view_type = "PE"
    · simp [extract_file_format, specExtractFormat, FORMAT_PE, FORMAT_ELF, FORMAT_SC32, FORMAT_SC64, FORMAT_BINJA_DB, hPE]
    by_cases hCOFF : bv.view_type = "COFF"
    · simp [extract_file_format, specExtractFormat, FORMAT_PE, FORMAT_ELF, FORMAT_SC32, FORMAT_SC64, FORMAT_BINJA_DB, hCOFF]
    by_cases hELF : bv.view_type = "ELF"
    · simp [extract_file_format, specExtractFormat, FORMAT_PE, FORMAT_ELF, FORMAT_SC32, FORMAT_SC64, FORMAT_BINJA_DB, hELF]
    by_cases hMapped : bv.view_type = "Mapped"
    · by_cases h32 : bv.arch_name = "x86"
      · simp [extract_file_format, specExtractFormat, FORMAT_PE, FORMAT_ELF, FORMAT_SC32, FORMAT_SC64, FORMAT_BINJA_DB, hMapped, h32]
      by_cases h64 : bv.arch_name = "x86_64"
      · simp [extract_file_format, specExtractFormat, FORMAT_PE, FORMAT_ELF, FORMAT_SC32, FORMAT_SC64, FORMAT_BINJA_DB, hMapped, h32, h64]
      · simp [extract_file_format, specExtractFormat, FORMAT_PE, FORMAT_ELF, FORMAT_SC32, FORMAT_SC64, FORMAT_BINJA_DB, hMapped, h32, h64]
    by_cases hRaw : bv.view_type = "Raw"
    · simp [extract_file_format, specExtractFormat, FORMAT_PE, FORMAT_ELF, FORMAT_SC32, FORMAT_SC64, FORMAT_BINJA_DB, hRaw]
    · simp [extract_file_format, specExtractFormat, FORMAT_PE, FORMAT_ELF, FORMAT_SC32, FORMAT_SC64, FORMAT_BINJA_DB,
        hPE, hCOFF, hELF, hMapped, hRaw]
  · cases hdb : bv.database <;>
      simp only [extract_file_format, hdb, Option.isSome] <;>
      split_ifs <;> rfl

/-- C5: for an import-address symbol, `extract_file_import_names` emits
`Import` features for every name from
`generate_symbols(namespace, short_name, include_dll := true)`, followed
by the names for the ordinal form `#ordinal` exactly when the ordinal is
non-zero and the namespace non-empty, all at the symbol's virtual
address. -/
theorem import_names_per_symbol (bv : BinaryView) (sym : Symbol)
    (h : bv.get_symbols_of_type SymbolType.ImportAddressSymbol = [sym]) :
    extract_file_import_names bv =
      ((generate_symbols sym.name_space sym.short_name true).map fun n =>
        (Feature.Import n, av sym.address)) ++
      (if sym.ordinal ≠ 0 ∧ sym.name_space ≠ "" then
        (generate_symbols sym.name_space ("#" ++ toString sym.ordinal)
          true).map fun n => (Feature.Import n, av sym.address)
       else []) ∧
    (extract_file_import_names bv).all
      (fun o => o.2 == av sym.address) = true := by
  have he : extract_file_import_names bv = importSym sym := by
    simp [extract_file_import_names, h]
  refine ⟨by simpa [importSym] using he, ?_⟩
  rw [he]
  simp only [importSym]
  split_ifs <;> simp [List.all_append]

/-- C5 (witness): the spec's §8 example — namespace `ADVAPI32.dll`, short
name `RegOpenKeyExA`, ordinal 0 — yields exactly the qualified and bare
names, no ordinal-based names. -/
theorem import_names_per_symbol_witness :
    extract_file_import_names advapiView =
      [(Feature.Import "ADVAPI32.RegOpenKeyExA", av 65536),
       (Feature.Import "RegOpenKeyExA", av 65536)] :=
  ((import_names_per_symbol advapiView advapiSym (by decide)).1).trans
    (by decide)

/-- C6: for a global- or weak-binding symbol seen by the first loop of
`extract_file_export_names` (here the only function symbol, with no data
symbols), the handler emits the forwarder pair — `Export` of the text
between the marker's parentheses plus
`Characteristic("forwarded export")` — when the short name is a complete
`__forwarder_name(...)` form, and otherwise `Export(name)` followed by
`Export(unmangle_c_name name)` exactly when demangling changes the name,
all at the symbol's virtual address. -/
theorem export_names_per_symbol (bv : BinaryView) (sym : Symbol)
    (hb : sym.binding = SymbolBinding.GlobalBinding ∨
          sym.binding = SymbolBinding.WeakBinding)
    (hf : bv.get_symbols_of_type SymbolType.FunctionSymbol = [sym])
    (hd : bv.get_symbols_of_type SymbolType.DataSymbol = []) :
    extract_file_export_names bv =
      if strStartsWith sym.short_name "__forwarder_name(" ∧
         strEndsWith sym.short_name ")" then
        [(Feature.Export (strDropRight (strDrop sym.short_name 17) 1),
          av sym.address),
         (Feature.Characteristic "forwarded export", av sym.address)]
      else
        (Feature.Export sym.short_name, av sym.address) ::
          (if sym.short_name ≠ unmangle_c_name sym.short_name then
            [(Feature.Export (unmangle_c_name sym.short_name),
              av sym.address)]
           else []) := by
  rcases hb with hb | hb <;>
    simp [extract_file_export_names, hf, hd, exportSymMain, hb]

/-- C6 (witness): a global function symbol with the decorated name
`_memcpy@16` yields the mangled and the demangled export. -/
theorem export_names_per_symbol_witness :
    extract_file_export_names mangledView =
      [(Feature.Export "_memcpy@16", av 4096),
       (Feature.Export "memcpy", av 4096)] :=
  (export_names_per_symbol mangledView mangledSym (Or.inl rfl) (by decide)
    (by decide)).trans (by decide)

/-- C7: for a library-function or ordinary-function symbol (here the only
entry of the symbol table), `extract_file_function_names` emits the
symbol's short name first, then — exactly when the name starts with an
underscore — the name with the leading underscore stripped, both paired
with the symbol's address; so a name not starting with `_` yields exactly
one observation and a name starting with `_` yields exactly two. -/
theorem function_names_per_symbol (bv : BinaryView) (sym : Symbol)
    (key : String)
    (ht : sym.type = SymbolType.LibraryFunctionSymbol ∨
          sym.type = SymbolType.FunctionSymbol)
    (hs : bv.symbols = [(key, [sym])]) :
    extract_file_function_names bv =
      (Feature.FunctionName sym.short_name, YieldedAddr.rawInt sym.address) ::
        (if strStartsWith sym.short_name "_" then
          [(Feature.FunctionName (strDrop sym.short_name 1),
            YieldedAddr.rawInt sym.address)]
         else []) ∧
    (extract_file_function_names bv).length =
      (if strStartsWith sym.short_name "_" then 2 else 1) := by
  have he : extract_file_function_names bv = funcNameSym sym := by
    simp [extract_file_function_names, hs]
  have hv : funcNameSym sym =
      (Feature.FunctionName sym.short_name,
        YieldedAddr.rawInt sym.address) ::
        (if strStartsWith sym.short_name "_" then
          [(Feature.FunctionName (strDrop sym.short_name 1),
            YieldedAddr.rawInt sym.address)]
         else []) := by
    rcases ht with ht | ht <;> simp [funcNameSym, ht]
  refine ⟨he.trans hv, ?_⟩
  rw [he, hv]
  split_ifs <;> rfl

/-- C7 (witness): the library function `_fwrite` yields exactly two
observations, the second with the underscore stripped. -/
theorem function_names_per_symbol_witness :
    extract_file_function_names fwriteView =
      [(Feature.FunctionName "_fwrite", YieldedAddr.rawInt 4368),
       (Feature.FunctionName "fwrite", YieldedAddr.rawInt 4368)] :=
  ((function_names_per_symbol fwriteView fwriteSym "_fwrite" (Or.inl rfl)
    (by decide)).1).trans (by decide)

/-- C8: `check_segment_for_pe` passes start offset 1 to carving exactly
when the segment starts at the view's start address and the view's
declared type is `PE`, and 0 otherwise, and emits
`Characteristic("embedded pe")` at `FileOffsetAddress(seg.start + o)` for
each carved hit `o`; `extract_file_embedded_pe` applies this check to
every segment. -/
theorem embedded_pe_start_offset_policy (bv : BinaryView) (seg : Segment) :
    check_segment_for_pe bv seg =
      (carve_pe (bv.read seg.start seg.length)
        (if bv.view_type = "PE" ∧ seg.start = bv.start then 1 else 0)).map
        (fun o => (Feature.Characteristic "embedded pe",
                   YieldedAddr.addr (Address.FileOffsetAddress
                     (seg.start + o)))) ∧
    extract_file_embedded_pe bv = bv.segments.flatMap (check_segment_for_pe bv) := by
  refine ⟨?_, rfl⟩
  simp [check_segment_for_pe, fo]

/-- C9: when `extract_file_format` raises, `extract_features` yields
every observation of the six handlers that run before it (plus the
observations the format handler yielded before raising) and then
propagates the same error unchanged; none of the other six handlers can
raise — their error components are `none` on every view. -/
theorem extract_features_error_propagation (bv : BinaryView)
    (e : ExtractErr) (h : (extract_file_format bv).err = some e) :
    extract_features bv =
      ⟨extract_file_export_names bv ++ (extract_file_import_names bv ++
       (extract_file_strings bv ++ (extract_file_section_names bv ++
       (extract_file_embedded_pe bv ++ (extract_file_function_names bv ++
       (extract_file_format bv).obs))))), some e⟩ ∧
    (FILE_HANDLERS.take 6).map (fun g => (g bv).err) =
      [none, none, none, none, none, none] := by
  refine ⟨?_, rfl⟩
  rw [extract_features_unfold bv, h]

/-- C9 (witness): a Mapped view declaring architecture `arm` with no
segments, symbols, sections or strings yields no observations and
propagates `UnsupportedArchitecture`. -/
theorem extract_features_error_propagation_witness :
    (extract_file_format armView).err =
      some (ExtractErr.UnsupportedArchitecture "arm") ∧
    extract_features armView =
      ⟨[], some (ExtractErr.UnsupportedArchitecture "arm")⟩ :=
  ⟨by decide,
   ((extract_features_error_propagation armView
      (ExtractErr.UnsupportedArchitecture "arm") (by decide)).1).trans
     (by decide)⟩

/-- C10: a library-function or function symbol whose short name is
exactly `_` (here the only entry of the symbol table) makes
`extract_file_function_names` emit `FunctionName("_")` followed by
`FunctionName("")`: the underscore-stripping rule has no minimum-length
check, so the empty feature name reaches the output. -/
theorem function_names_underscore_only_symbol (bv : BinaryView)
    (sym : Symbol) (key : String)
    (ht : sym.type = SymbolType.LibraryFunctionSymbol ∨
          sym.type = SymbolType.FunctionSymbol)
    (hn : sym.short_name = "_")
    (hs : bv.symbols = [(key, [sym])]) :
    extract_file_function_names bv =
      [(Feature.FunctionName "_", YieldedAddr.rawInt sym.address),
       (Feature.FunctionName "", YieldedAddr.rawInt sym.address)] := by
  have h1 : strStartsWith "_" "_" = true := by decide
  have h2 : strDrop "_" 1 = "" := by decide
  rcases ht with ht | ht <;>
    simp [extract_file_function_names, hs, funcNameSym, ht, hn, h1, h2]

/-- C10 (witness): the concrete view `underscoreView`. -/
theorem function_names_underscore_only_symbol_witness :
    extract_file_function_names underscoreView =
      [(Feature.FunctionName "_", YieldedAddr.rawInt 100),
       (Feature.FunctionName "", YieldedAddr.rawInt 100)] :=
  function_names_underscore_only_symbol underscoreView underscoreSym "_"
    (Or.inr rfl) rfl rfl

end Capa
